import Mathlib

/-!
Verification development for the PokePlusPlus simulation core.

This file gives a shallow embedding, over exact rationals, of the parts of the
source relevant to the stated properties:

* the terrain height field (`src/core/World.cpp`: `World::heightAt`,
  `World::normalAt`),
* the per-capsule physics / shake step of `App::updatePokeballs`
  (`src/core/App.cpp`),
* the capture initiation and resolution logic
  (`PokemonController::handlePokeballCapture`, the shake-completion branch of
  `App::updatePokeballs`),
* the creature state machine (`src/core/Pokemon.cpp`: `Pokemon::update`,
  `startCapture`, `markCaptured`, `markCaptureFailed`),
* the inventory manager (`src/core/PokemonController.cpp`: `sendOutPokemon`,
  `recallPokemon`, `updateInventory`, `isPokemonOut`, `hasAnyPokemonOut`,
  `isOwnedPokemon`),
* the fixed-step accumulator drain of `App::updateTiming`.

C++ `float` values are modelled as `ℚ`.  Calls into libm / glm that produce
irrational values (`std::sin`, `sqrt`, `atan2`) are modelled by an explicit
oracle structure `LibM`: theorems hold for every oracle, and concrete
instantiations use stub oracles.  Comparisons that the source performs on a
`glm::length` (a square root) are expressed on squared lengths, which is an
exact characterisation over the rationals and is noted at each use site.
-/

set_option maxHeartbeats 1000000

namespace PokePP

/-- A 3-component vector of rationals, modelling `glm::vec3`. -/
structure Vec3 where
  x : ℚ
  y : ℚ
  z : ℚ
deriving DecidableEq, Repr

instance : Add Vec3 := ⟨fun a b => ⟨a.x + b.x, a.y + b.y, a.z + b.z⟩⟩

instance : Sub Vec3 := ⟨fun a b => ⟨a.x - b.x, a.y - b.y, a.z - b.z⟩⟩

/-- Componentwise product, modelling `glm::vec3 * glm::vec3`. -/
instance : Mul Vec3 := ⟨fun a b => ⟨a.x * b.x, a.y * b.y, a.z * b.z⟩⟩

/-- Scalar multiple, modelling `float * glm::vec3`. -/
instance : SMul ℚ Vec3 := ⟨fun s v => ⟨s * v.x, s * v.y, s * v.z⟩⟩

/-- Models `glm::dot`. -/
def Vec3.dot (a b : Vec3) : ℚ := a.x * b.x + a.y * b.y + a.z * b.z

@[simp] theorem Vec3.add_def (a b : Vec3) :
    a + b = ⟨a.x + b.x, a.y + b.y, a.z + b.z⟩ := rfl

@[simp] theorem Vec3.sub_def (a b : Vec3) :
    a - b = ⟨a.x - b.x, a.y - b.y, a.z - b.z⟩ := rfl

@[simp] theorem Vec3.mul_def (a b : Vec3) :
    a * b = ⟨a.x * b.x, a.y * b.y, a.z * b.z⟩ := rfl

@[simp] theorem Vec3.smul_def (s : ℚ) (v : Vec3) :
    s • v = ⟨s * v.x, s * v.y, s * v.z⟩ := rfl

/-- The zero vector, `glm::vec3(0.0f)`. -/
def Vec3.zero : Vec3 := ⟨0, 0, 0⟩

/-- Models `glm::reflect(I, N) = I - 2 * dot(N, I) * N`. -/
def reflect (i n : Vec3) : Vec3 := i - (2 * Vec3.dot n i) • n

/-- Oracle for libm / glm functions whose exact values are irrational.
`sinf` models `std::sin`, `sqrtf` models the square root inside
`glm::normalize`, `atan2f` models `std::atan2`.  All theorems below are
stated for an arbitrary oracle. -/
structure LibM where
  sinf : ℚ → ℚ
  sqrtf : ℚ → ℚ
  atan2f : ℚ → ℚ → ℚ

/-- A stub oracle used to instantiate witnesses. -/
def stubLib : LibM := ⟨fun q => q, fun q => q, fun _ _ => 0⟩

/-- Models `glm::normalize(v) = v / sqrt(dot(v, v))`, via the sqrt oracle. -/
def glmNormalize (lib : LibM) (v : Vec3) : Vec3 :=
  (1 / lib.sqrtf (Vec3.dot v v)) • v

/-! ## Constants (include/pokeapp/Constants.h, App.h member initialisers) -/

/-- Models `constants::GRAVITY = 9.8f` (also `App::gravity_`). -/
def GRAVITY : ℚ := 49/5

/-- Models `constants::BOUNCE_RESTITUTION = 0.6f` (also `App::bounceRestitution_`). -/
def BOUNCE_RESTITUTION : ℚ := 3/5

/-- Models `constants::BOUNCE_FRICTION = 0.95f`. -/
def BOUNCE_FRICTION : ℚ := 19/20

/-- Models `constants::GROUND_Y = -0.5f`. -/
def GROUND_Y : ℚ := -1/2

/-- Models `constants::PHYSICS_TIMESTEP = 1.0f / 120.0f`. -/
def PHYSICS_TIMESTEP : ℚ := 1/120

/-- Models `SHAKE_DURATION = 0.6f` (local constexpr in `App::updatePokeballs`). -/
def SHAKE_DURATION : ℚ := 3/5

/-- Models `MAX_SHAKES = 3` (local constexpr in `App::updatePokeballs`). -/
def MAX_SHAKES : ℤ := 3

/-! ## Terrain height field (src/core/World.cpp) -/

/-- The height-field part of the `World` class: the elevation samples and the
world-to-grid transform parameters.  Rendering-only members (`ground_`,
textures) are omitted. -/
structure World where
  heights : List ℚ
  imgW : ℤ
  imgH : ℤ
  cellSize : ℚ
  halfWm : ℚ
  halfZm : ℚ
deriving DecidableEq, Repr

/-- Models `World::idx(i, j) = j * imgW_ + i`. -/
def World.idx (w : World) (i j : ℤ) : ℤ := j * w.imgW + i

/-- The clamped sampler `Hc` inside `World::heightAt` (World.cpp 179-183):
clamp indices to the valid range, then read `heights_[idx(ii, jj)]`.  The
vector read is modelled with `List.getD` (in-range for well-formed worlds). -/
def World.sample (w : World) (ii jj : ℤ) : ℚ :=
  let i := min (max ii 0) (w.imgW - 1)
  let j := min (max jj 0) (w.imgH - 1)
  w.heights.getD (w.idx i j).toNat 0

/-- Models `World::heightAt` (World.cpp 160-193): affine world-to-grid transform,
clamp to the valid range, bilinear interpolation of the four enclosing
samples. -/
def World.heightAt (w : World) (x z : ℚ) : ℚ :=
  if w.imgW ≤ 1 ∨ w.imgH ≤ 1 then 0
  else
    let W : ℚ := ((w.imgW - 1 : ℤ) : ℚ)
    let H : ℚ := ((w.imgH - 1 : ℤ) : ℚ)
    let u0 := (x + w.halfWm) / w.cellSize
    let v0 := (z + w.halfZm) / w.cellSize
    let u := min (max u0 0) W
    let v := min (max v0 0) H
    let i : ℤ := ⌊u⌋
    let j : ℤ := ⌊v⌋
    let tx : ℚ := u - (i : ℚ)
    let tz : ℚ := v - (j : ℚ)
    let h00 := w.sample i j
    let h10 := w.sample (i + 1) j
    let h01 := w.sample i (j + 1)
    let h11 := w.sample (i + 1) (j + 1)
    let h0 := (1 - tx) * h00 + tx * h10
    let h1 := (1 - tx) * h01 + tx * h11
    (1 - tz) * h0 + tz * h1

/-- The argument of `glm::normalize` in `World::normalAt` (World.cpp 197-210):
central differences at a step of one grid cell, gradient `(-hx, 1, -hz)`. -/
def World.normalArg (w : World) (x z : ℚ) : Vec3 :=
  let eps := w.cellSize
  let hL := w.heightAt (x - eps) z
  let hR := w.heightAt (x + eps) z
  let hD := w.heightAt x (z - eps)
  let hU := w.heightAt x (z + eps)
  let hx := (hR - hL) / (2 * eps)
  let hz := (hU - hD) / (2 * eps)
  ⟨-hx, 1, -hz⟩

/-- Models `World::normalAt` = `glm::normalize` of the central-difference gradient. -/
def World.normalAt (lib : LibM) (w : World) (x z : ℚ) : Vec3 :=
  glmNormalize lib (w.normalArg x z)

/-- A `World` with no backing data, as left by the default constructor's
member initialisers (`World.h`): `heights_` empty, `imgW_ = imgH_ = 0`,
`cellSize_ = 1.0f`, half extents `0`. -/
def World.noData : World := ⟨[], 0, 0, 1, 0, 0⟩

/-! ## Theorems: height field -/

/-- C6: for every height field and every grid index `(i, j)` in range,
`heightAt` evaluated at that sample's exact world coordinate
(`x = i*cellSize - halfWidth`, `z = j*cellSize - halfDepth`) returns exactly
the stored sample `heights[j * imgW + i]`: the bilinear interpolation reduces
to the corner value at integer grid coordinates, including at the last row
and column. -/
theorem heightAt_grid_sample (w : World) (i j : ℤ)
    (hW : 2 ≤ w.imgW) (hH : 2 ≤ w.imgH) (hc : 0 < w.cellSize)
    (hi0 : 0 ≤ i) (hi1 : i ≤ w.imgW - 1) (hj0 : 0 ≤ j) (hj1 : j ≤ w.imgH - 1) :
    w.heightAt ((i : ℚ) * w.cellSize - w.halfWm) ((j : ℚ) * w.cellSize - w.halfZm)
      = w.heights.getD (w.idx i j).toNat 0 := by
  have hcne : w.cellSize ≠ 0 := ne_of_gt hc
  have hu : ((i : ℚ) * w.cellSize - w.halfWm + w.halfWm) / w.cellSize = (i : ℚ) := by
    field_simp
  have hv : ((j : ℚ) * w.cellSize - w.halfZm + w.halfZm) / w.cellSize = (j : ℚ) := by
    field_simp
  have hguard : ¬ (w.imgW ≤ 1 ∨ w.imgH ≤ 1) := by omega
  have hiW : (i : ℚ) ≤ ((w.imgW - 1 : ℤ) : ℚ) := by exact_mod_cast hi1
  have hjH : (j : ℚ) ≤ ((w.imgH - 1 : ℤ) : ℚ) := by exact_mod_cast hj1
  have hi0q : (0 : ℚ) ≤ (i : ℚ) := by exact_mod_cast hi0
  have hj0q : (0 : ℚ) ≤ (j : ℚ) := by exact_mod_cast hj0
  rw [World.heightAt, if_neg hguard]
  simp only [hu, hv, max_eq_left hi0q, max_eq_left hj0q,
    min_eq_left hiW, min_eq_left hjH, Int.floor_intCast, sub_self]
  rw [World.sample]
  simp only [max_eq_left hi0, max_eq_left hj0, min_eq_left hi1, min_eq_left hj1]
  ring

/-- Witness for C6 at a concrete 2x2 height field and the last grid corner. -/
theorem heightAt_grid_sample_witness :
    World.heightAt ⟨[10, 20, 30, 40], 2, 2, 1, 1/2, 1/2⟩ (1/2) (1/2) = 40 := by
  have h := heightAt_grid_sample ⟨[10, 20, 30, 40], 2, 2, 1, 1/2, 1/2⟩ 1 1
    (by decide) (by decide) (by decide) (by decide) (by decide) (by decide) (by decide)
  norm_num [World.idx] at h
  convert h using 2

/-- C8: a height field instantiated without backing data answers every
`heightAt` query with exactly `0` and every `normalAt` query with the unit up
vector `(0, 1, 0)` (given only that the sqrt oracle is exact at `1`, where the
source computes `sqrt(1)`); both queries are total functions, so no caller
needs a null check. -/
theorem noData_world_flat_fallback (lib : LibM) (x z : ℚ)
    (hs : lib.sqrtf 1 = 1) :
    World.noData.heightAt x z = 0 ∧
    World.noData.normalAt lib x z = ⟨0, 1, 0⟩ := by
  have hh : ∀ a b : ℚ, World.noData.heightAt a b = 0 := by
    intro a b
    rw [World.heightAt]
    simp [World.noData]
  refine ⟨hh x z, ?_⟩
  rw [World.normalAt, World.normalArg]
  simp only [hh]
  rw [glmNormalize]
  simp [Vec3.dot, hs]

/-- Witness for C8 with the stub oracle at a concrete query point. -/
theorem noData_world_flat_fallback_witness :
    World.noData.heightAt 5 (-3) = 0 ∧
    World.noData.normalAt stubLib 5 (-3) = ⟨0, 1, 0⟩ :=
  noData_world_flat_fallback stubLib 5 (-3) rfl

/-! ## Creature state machine (src/core/Pokemon.cpp) -/

/-- Models `enum class PokemonState` (Pokemon.h). -/
inductive PokemonState where
  | Idle
  | Walking
  | Capturing
  | Captured
  | CaptureFailed
deriving DecidableEq, Repr

/-- The simulation-relevant fields of the `Pokemon` class (Pokemon.h).
Rendering-only members (`model_`, species display name/colour/scale) are
omitted; of the species record only the capture probability is kept, as read
by `getCatchRate()`. -/
structure Pokemon where
  id : ℤ
  catchRate : ℚ
  position : Vec3
  velocity : Vec3
  wanderDir : Vec3
  speed : ℚ
  radius : ℚ
  visible : Bool
  state : PokemonState
  timeUntilDirectionChange : ℚ
  captureTimer : ℚ
  yRotation : ℚ
deriving DecidableEq, Repr

/-- Models `Pokemon::pickNewWanderDirection` (Pokemon.cpp 34-41).  The source draws a
random angle `a` and sets `wanderDir_ = normalize(cos a, 0, sin a)`; the
oracle input `dir` stands for that resulting unit direction and `r` for the
`randomFloat()` sample used for the timer (`1.0f + 2.0f * r`). -/
def Pokemon.pickNewWanderDirection (dir : Vec3) (r : ℚ) (p : Pokemon) : Pokemon :=
  { p with wanderDir := dir
         , velocity := p.speed • dir
         , timeUntilDirectionChange := 1 + 2 * r
         , state := PokemonState.Walking }

/-- Models `Pokemon::startCapture` (Pokemon.cpp 134-138). -/
def Pokemon.startCapture (p : Pokemon) : Pokemon :=
  { p with state := PokemonState.Capturing, captureTimer := 0, velocity := Vec3.zero }

/-- Models `Pokemon::markCaptured` (Pokemon.cpp 140-143). -/
def Pokemon.markCaptured (p : Pokemon) : Pokemon :=
  { p with state := PokemonState.Captured, visible := false }

/-- Models `Pokemon::markCaptureFailed` (Pokemon.cpp 145-148). -/
def Pokemon.markCaptureFailed (p : Pokemon) : Pokemon :=
  { p with state := PokemonState.CaptureFailed, visible := true }

/-- Models `Pokemon::update` (Pokemon.cpp 44-104).  `d1, r1` are the oracle inputs
for a `pickNewWanderDirection` triggered by an obstacle collision, `d2, r2`
for one triggered by the direction-change timer.  The source's obstacle test
`glm::length(toObstacle) < radius_ + 0.7f` and the rotation guard
`glm::length(moveDir) > 0.001f` are expressed on squared lengths, which is
exactly equivalent since both thresholds are positive and lengths are
nonnegative. -/
def Pokemon.update (lib : LibM) (d1 : Vec3) (r1 : ℚ) (d2 : Vec3) (r2 : ℚ)
    (dt : ℚ) (world? : Option World) (obstacles : List Vec3)
    (p : Pokemon) : Pokemon :=
  if p.state = PokemonState.Captured then p
  else if p.state = PokemonState.CaptureFailed then
    let p := p.pickNewWanderDirection d1 r1
    { p with visible := true, state := PokemonState.Idle }
  else if p.state = PokemonState.Capturing then
    { p with captureTimer := p.captureTimer + dt }
  else
    let oldPos := p.position
    let nextPos := p.position + dt • p.velocity
    let collided := obstacles.any fun o =>
      decide ((o.x - nextPos.x) ^ 2 + (o.z - nextPos.z) ^ 2 < (p.radius + 7/10) ^ 2)
    let p := if collided then p.pickNewWanderDirection d1 r1
             else { p with position := nextPos }
    let p := match world? with
      | some w =>
          { p with position := ⟨p.position.x, w.heightAt p.position.x p.position.z, p.position.z⟩ }
      | none => p
    let p := { p with timeUntilDirectionChange := p.timeUntilDirectionChange - dt }
    let p := if p.timeUntilDirectionChange ≤ 0 then p.pickNewWanderDirection d2 r2 else p
    let moveDir := p.position - oldPos
    if moveDir.x ^ 2 + moveDir.y ^ 2 + moveDir.z ^ 2 > (1/1000) ^ 2 then
      { p with yRotation := lib.atan2f moveDir.x moveDir.z }
    else p

/-! ## Capsules and the projectile physics engine (Pokeball.h, App.cpp) -/

/-- The `Pokeball` struct (Pokeball.h). -/
structure Pokeball where
  position : Vec3
  velocity : Vec3
  radius : ℚ
  active : Bool
  grounded : Bool
  life : ℚ
  locked : Bool
  lockTimer : ℚ
  shakeCount : ℤ
  shakePhase : ℚ
  captureBasePos : Vec3
  captureSuccess : Bool
  targetPokemonId : ℤ
deriving DecidableEq, Repr

/-- A static obstacle, `App::Prop` (App.h 90-95); the rendering member
`model` is omitted. -/
structure PropObj where
  pos : Vec3
  scale : Vec3
  aabbMinLocal : Vec3
  aabbMaxLocal : Vec3
deriving DecidableEq, Repr

/-- The `closestPointOnAABB` lambda in `App::updatePokeballs`
(App.cpp 685-691). -/
def closestPointOnAABB (p aabbMin aabbMax : Vec3) : Vec3 :=
  ⟨min (max p.x aabbMin.x) aabbMax.x,
   min (max p.y aabbMin.y) aabbMax.y,
   min (max p.z aabbMin.z) aabbMax.z⟩

/-- The per-prop collision response of `App::updatePokeballs`
(App.cpp 748-777): closest point on the world-space AABB, penetration
push-out, and (only when moving into the surface) reflection with restitution
followed by friction on the tangential component.  `dist = sqrt(distSq)` goes
through the sqrt oracle. -/
def resolveProp (lib : LibM) (prop : PropObj) (b : Pokeball) : Pokeball :=
  let aabbMin := prop.pos + prop.scale * prop.aabbMinLocal
  let aabbMax := prop.pos + prop.scale * prop.aabbMaxLocal
  let closestPt := closestPointOnAABB b.position aabbMin aabbMax
  let delta := b.position - closestPt
  let distSq := Vec3.dot delta delta
  let radiusSq := b.radius * b.radius
  if distSq < radiusSq then
    let dist := lib.sqrtf distSq
    let collisionNormal := if dist > 1/10000 then (1 / dist) • delta else (⟨0, 1, 0⟩ : Vec3)
    let penetration := b.radius - dist
    let b := { b with position := b.position + penetration • collisionNormal }
    if Vec3.dot b.velocity collisionNormal < 0 then
      let reflection := reflect b.velocity collisionNormal
      let v := BOUNCE_RESTITUTION • reflection
      let normalVel := (Vec3.dot v collisionNormal) • collisionNormal
      let tangentVel := v - normalVel
      { b with velocity := normalVel + BOUNCE_FRICTION • tangentVel }
    else b
  else b

/-- The body of the per-ball loop of `App::updatePokeballs` (App.cpp 694-808):
the locked shake branch (697-737), the inactive skip (739), and the flying
branch — gravity and integration (744-745), prop collisions (748-777),
terrain collision (780-805), time-to-live decrement (807).  The creature
side-effect at shake completion (713-723) touches only the matched creature,
never the ball; it is modelled separately by `resolveCapture`.  `world?`
models the `world_` pointer: when null, the terrain is the flat plane
`GROUND_Y` with unit up normal (780-781). -/
def ballStep (lib : LibM) (props : List PropObj) (world? : Option World)
    (dt : ℚ) (b : Pokeball) : Pokeball :=
  let step := min dt (1/60)
  if b.locked then
    let b := { b with lockTimer := b.lockTimer + dt }
    let b := if b.lockTimer ≤ dt then { b with captureBasePos := b.position } else b
    let b := { b with shakePhase := b.shakePhase + dt / SHAKE_DURATION }
    let b := if b.shakePhase ≥ 1 then
               { b with shakePhase := 0, shakeCount := b.shakeCount + 1 }
             else b
    if b.shakeCount < MAX_SHAKES then
      let t := b.shakePhase
      let shakeOffset := (12/100) * lib.sinf (t * (628318/100000))
      { b with position := ⟨b.captureBasePos.x + shakeOffset,
                            b.captureBasePos.y, b.captureBasePos.z⟩ }
    else b
  else if !b.active then b
  else
    let v : Vec3 := ⟨b.velocity.x, b.velocity.y - GRAVITY * step, b.velocity.z⟩
    let b := { b with velocity := v, position := b.position + step • v }
    let b := props.foldl (fun bb pr => resolveProp lib pr bb) b
    let terrainHeight := match world? with
      | none => GROUND_Y
      | some w => w.heightAt b.position.x b.position.z
    let terrainNormal := match world? with
      | none => (⟨0, 1, 0⟩ : Vec3)
      | some w => w.normalAt lib b.position.x b.position.z
    let terrainPoint : Vec3 := ⟨b.position.x, terrainHeight, b.position.z⟩
    let toBall := b.position - terrainPoint
    let distToTerrain := Vec3.dot toBall terrainNormal
    let b :=
      if distToTerrain < b.radius then
        let penetration := b.radius - distToTerrain
        let b := { b with position := b.position + penetration • terrainNormal }
        if Vec3.dot b.velocity terrainNormal < 0 then
          let reflection := reflect b.velocity terrainNormal
          let v := BOUNCE_RESTITUTION • reflection
          let normalVel := (Vec3.dot v terrainNormal) • terrainNormal
          let tangentVel := v - normalVel
          { b with velocity := normalVel + BOUNCE_FRICTION • tangentVel }
        else b
      else b
    { b with life := b.life - step }

/-! ## Capture initiation and resolution
(PokemonController::handlePokeballCapture, App::updatePokeballs 712-724) -/

/-- The sphere-sphere overlap test `collide` (PokemonController.cpp 22-26):
squared distance compared (`<=`) against the squared sum of radii. -/
def collide (p1 : Vec3) (r1 : ℚ) (p2 : Vec3) (r2 : ℚ) : Bool :=
  let rsum := r1 + r2
  let dist2 := Vec3.dot (p1 - p2) (p1 - p2)
  decide (dist2 ≤ rsum * rsum)

/-- The capture-outcome decision at hit time (PokemonController.cpp 94-96):
success iff the drawn sample is `<=` the species' capture probability. -/
def captureOutcome (roll catchRate : ℚ) : Bool := decide (roll ≤ catchRate)

/-- The body of `PokemonController::handlePokeballCapture` for one
(creature, capsule) pair (PokemonController.cpp 55-103): the outer-loop
guards on the creature (58-67, `owned` standing for `isOwnedPokemon`), the
inner-loop guards on the capsule (73-77), the hit test (80), and on a hit the
effects 81-99: the creature starts capturing and is hidden, the capsule is
deactivated, locked, snapped above the creature with zeroed velocity, records
the target id, and stores the outcome drawn from the single sample `roll`. -/
def captureHit (roll : ℚ) (owned : Bool) (p : Pokemon) (b : Pokeball) :
    Pokemon × Pokeball :=
  if p.state = PokemonState.Captured ∨ p.state = PokemonState.Capturing then (p, b)
  else if p.state = PokemonState.CaptureFailed then (p, b)
  else if owned then (p, b)
  else if b.locked then (p, b)
  else if b.targetPokemonId = p.id then (p, b)
  else if collide b.position b.radius p.position p.radius then
    let p' := { p.startCapture with visible := false }
    let b' := { b with
      active := false
      locked := true
      lockTimer := 0
      velocity := Vec3.zero
      targetPokemonId := p.id
      position := p.position + (⟨0, p.radius, 0⟩ : Vec3)
      captureSuccess := captureOutcome roll p.catchRate }
    (p', b')
  else (p, b)

/-- The shake-completion resolution (App.cpp 712-724): after the third shake
the creature paired with the capsule (found `Capturing` within distance 1 of
the capsule's base position) is marked captured or failed purely according to
the outcome stored on the capsule at hit time. -/
def resolveCapture (b : Pokeball) (p : Pokemon) : Pokemon :=
  if b.captureSuccess then p.markCaptured else p.markCaptureFailed

/-- All ways the live system writes a capsule after creation: a fixed physics
increment (`App::updatePokeballs`) or the capture pass
(`PokemonController::handlePokeballCapture`) considered against some
creature.  `BallEvolve b c` holds when capsule state `c` is reachable from
capsule state `b`. -/
inductive BallEvolve : Pokeball → Pokeball → Prop where
  | refl (b : Pokeball) : BallEvolve b b
  | phys (lib : LibM) (props : List PropObj) (world? : Option World) (dt : ℚ)
      {a b : Pokeball} :
      BallEvolve a b → BallEvolve a (ballStep lib props world? dt b)
  | hit (roll : ℚ) (owned : Bool) (p : Pokemon) {a b : Pokeball} :
      BallEvolve a b → BallEvolve a (captureHit roll owned p b).2

/-! ### Helper lemmas on the capsule step -/

theorem resolveProp_preserves (lib : LibM) (pr : PropObj) (b : Pokeball) :
    (resolveProp lib pr b).locked = b.locked ∧
    (resolveProp lib pr b).active = b.active ∧
    (resolveProp lib pr b).captureSuccess = b.captureSuccess ∧
    (resolveProp lib pr b).targetPokemonId = b.targetPokemonId := by
  simp only [resolveProp]
  split_ifs <;> exact ⟨rfl, rfl, rfl, rfl⟩

theorem foldl_resolveProp_preserves (lib : LibM) (props : List PropObj) (b : Pokeball) :
    (props.foldl (fun bb pr => resolveProp lib pr bb) b).locked = b.locked ∧
    (props.foldl (fun bb pr => resolveProp lib pr bb) b).active = b.active ∧
    (props.foldl (fun bb pr => resolveProp lib pr bb) b).captureSuccess = b.captureSuccess ∧
    (props.foldl (fun bb pr => resolveProp lib pr bb) b).targetPokemonId = b.targetPokemonId := by
  induction props generalizing b with
  | nil => exact ⟨rfl, rfl, rfl, rfl⟩
  | cons pr rest ih =>
    simp only [List.foldl_cons]
    have h1 := resolveProp_preserves lib pr b
    have h2 := ih (resolveProp lib pr b)
    exact ⟨h1.1 ▸ h2.1, h1.2.1 ▸ h2.2.1, h1.2.2.1 ▸ h2.2.2.1, h1.2.2.2 ▸ h2.2.2.2⟩

/-- A physics increment never changes the `locked`, `active`,
`captureSuccess` or `targetPokemonId` fields of a capsule. -/
theorem ballStep_preserves (lib : LibM) (props : List PropObj)
    (world? : Option World) (dt : ℚ) (b : Pokeball) :
    (ballStep lib props world? dt b).locked = b.locked ∧
    (ballStep lib props world? dt b).active = b.active ∧
    (ballStep lib props world? dt b).captureSuccess = b.captureSuccess ∧
    (ballStep lib props world? dt b).targetPokemonId = b.targetPokemonId := by
  simp only [ballStep]
  split_ifs <;>
    first
    | exact ⟨rfl, rfl, rfl, rfl⟩
    | exact ⟨(foldl_resolveProp_preserves lib props _).1,
        (foldl_resolveProp_preserves lib props _).2.1,
        (foldl_resolveProp_preserves lib props _).2.2.1,
        (foldl_resolveProp_preserves lib props _).2.2.2⟩

/-- The capture pass never writes a capsule that is already locked. -/
theorem captureHit_of_locked (roll : ℚ) (owned : Bool) (p : Pokemon)
    {b : Pokeball} (h : b.locked = true) :
    (captureHit roll owned p b).2 = b := by
  rw [captureHit]
  split_ifs <;> simp_all

/-- On a locked capsule the physics increment leaves the velocity untouched
and writes the position only as the sinusoidal shake offset around the
captured base position, or not at all once the shakes are complete. -/
theorem ballStep_locked_facts (lib : LibM) (props : List PropObj)
    (world? : Option World) (dt : ℚ) {b : Pokeball} (h : b.locked = true) :
    (ballStep lib props world? dt b).velocity = b.velocity ∧
    ((ballStep lib props world? dt b).position =
        ⟨(ballStep lib props world? dt b).captureBasePos.x
            + (12/100) * lib.sinf ((ballStep lib props world? dt b).shakePhase * (628318/100000)),
          (ballStep lib props world? dt b).captureBasePos.y,
          (ballStep lib props world? dt b).captureBasePos.z⟩
      ∨ (MAX_SHAKES ≤ (ballStep lib props world? dt b).shakeCount
          ∧ (ballStep lib props world? dt b).position = b.position)) := by
  simp only [ballStep, h, if_true]
  split
  · next hlt =>
    split
    · next hph =>
      split
      · next hcnt => exact ⟨rfl, Or.inl rfl⟩
      · next hcnt => exact ⟨rfl, Or.inr ⟨by omega, rfl⟩⟩
    · next hph =>
      split
      · next hcnt => exact ⟨rfl, Or.inl rfl⟩
      · next hcnt => exact ⟨rfl, Or.inr ⟨by omega, rfl⟩⟩
  · next hlt =>
    split
    · next hph =>
      split
      · next hcnt => exact ⟨rfl, Or.inl rfl⟩
      · next hcnt => exact ⟨rfl, Or.inr ⟨by omega, rfl⟩⟩
    · next hph =>
      split
      · next hcnt => exact ⟨rfl, Or.inl rfl⟩
      · next hcnt => exact ⟨rfl, Or.inr ⟨by omega, rfl⟩⟩

/-- When the hit test fires (the capsule went from unlocked to locked), the
pair is exactly the source's hit effects (PokemonController.cpp 80-99). -/
theorem captureHit_fired (roll : ℚ) (owned : Bool) (p : Pokemon) (b : Pokeball)
    (hfire : (captureHit roll owned p b).2.locked = true) (hb : b.locked = false) :
    captureHit roll owned p b =
      ({ p.startCapture with visible := false },
       { b with active := false, locked := true, lockTimer := 0,
                velocity := Vec3.zero, targetPokemonId := p.id,
                position := p.position + (⟨0, p.radius, 0⟩ : Vec3),
                captureSuccess := captureOutcome roll p.catchRate }) := by
  rw [captureHit] at hfire ⊢
  split_ifs at hfire ⊢ <;> simp_all

/-! ## Concrete instances used by witnesses -/

/-- The `Pokeball` member initialisers (Pokeball.h). -/
def defaultBall : Pokeball :=
  { position := Vec3.zero, velocity := Vec3.zero, radius := 3/10,
    active := true, grounded := false, life := 10, locked := false,
    lockTimer := 0, shakeCount := 0, shakePhase := 0,
    captureBasePos := Vec3.zero, captureSuccess := false, targetPokemonId := -1 }

/-- The `Pokemon` field defaults (Pokemon.h member initialisers, with the
default `getCatchRate` value). -/
def defaultPokemon : Pokemon :=
  { id := 0, catchRate := 1/2, position := Vec3.zero, velocity := Vec3.zero,
    wanderDir := Vec3.zero, speed := 2, radius := 1/2, visible := true,
    state := PokemonState.Idle, timeUntilDirectionChange := 0,
    captureTimer := 0, yRotation := 0 }

/-- A concrete wild creature used in witnesses. -/
def wildPokemonW : Pokemon := { defaultPokemon with id := 7 }

/-- A concrete locked, inactive capsule used in witnesses. -/
def lockedBallW : Pokeball := { defaultBall with locked := true, active := false }

/-! ## Theorems: capsule lock and capture outcome -/

/-- C1: once a capsule is locked (`locked = true`, `active = false`, as set
atomically at the hit site), every reachable later capsule state is still
locked and inactive, and a physics increment on such a state never changes
its velocity (no gravity, no integration) and writes its position only as the
sinusoidal shake oscillation around the captured base position — or leaves it
untouched once the shake count has reached its maximum. -/
theorem locked_stays_locked_no_gravity {b c : Pokeball}
    (hl : b.locked = true) (ha : b.active = false) (hev : BallEvolve b c) :
    (c.locked = true ∧ c.active = false) ∧
    ∀ (lib : LibM) (props : List PropObj) (world? : Option World) (dt : ℚ),
      (ballStep lib props world? dt c).velocity = c.velocity ∧
      ((ballStep lib props world? dt c).position =
          ⟨(ballStep lib props world? dt c).captureBasePos.x
              + (12/100) * lib.sinf ((ballStep lib props world? dt c).shakePhase * (628318/100000)),
            (ballStep lib props world? dt c).captureBasePos.y,
            (ballStep lib props world? dt c).captureBasePos.z⟩
        ∨ (MAX_SHAKES ≤ (ballStep lib props world? dt c).shakeCount
            ∧ (ballStep lib props world? dt c).position = c.position)) := by
  have hper : c.locked = true ∧ c.active = false := by
    induction hev with
    | refl b => exact ⟨hl, ha⟩
    | @phys lib props world? dt a' b' hab ih =>
        have hih := ih hl ha
        have hp := ballStep_preserves lib props world? dt b'
        exact ⟨hp.1.trans hih.1, hp.2.1.trans hih.2⟩
    | @hit roll owned p a' b' hab ih =>
        have hih := ih hl ha
        rw [captureHit_of_locked roll owned p hih.1]
        exact hih
  exact ⟨hper, fun lib props world? dt => ballStep_locked_facts lib props world? dt hper.1⟩

/-- Witness for C1 at a concrete locked capsule (the reflexive evolution). -/
theorem locked_stays_locked_no_gravity_witness :
    ((lockedBallW.locked = true ∧ lockedBallW.active = false) ∧
     ∀ (lib : LibM) (props : List PropObj) (world? : Option World) (dt : ℚ),
       (ballStep lib props world? dt lockedBallW).velocity = lockedBallW.velocity ∧
       ((ballStep lib props world? dt lockedBallW).position =
           ⟨(ballStep lib props world? dt lockedBallW).captureBasePos.x
               + (12/100) * lib.sinf ((ballStep lib props world? dt lockedBallW).shakePhase * (628318/100000)),
             (ballStep lib props world? dt lockedBallW).captureBasePos.y,
             (ballStep lib props world? dt lockedBallW).captureBasePos.z⟩
         ∨ (MAX_SHAKES ≤ (ballStep lib props world? dt lockedBallW).shakeCount
             ∧ (ballStep lib props world? dt lockedBallW).position = lockedBallW.position))) :=
  locked_stays_locked_no_gravity rfl rfl (BallEvolve.refl lockedBallW)

/-- C2: the capture outcome is decided exactly once, at the moment a flying
(unlocked) capsule first overlaps the creature: the stored `captureSuccess`
is the pure function `captureOutcome` of the single drawn sample and the
species' capture probability (success iff sample ≤ probability); afterwards
neither a physics increment nor another capture pass ever rewrites it, and
shake completion only branches on the stored bit. -/
theorem capture_outcome_decided_at_hit (roll : ℚ) (owned : Bool)
    (p : Pokemon) (b : Pokeball)
    (hfire : (captureHit roll owned p b).2.locked = true) (hb : b.locked = false) :
    ((captureHit roll owned p b).2.captureSuccess = captureOutcome roll p.catchRate) ∧
    (∀ r q : ℚ, captureOutcome r q = true ↔ r ≤ q) ∧
    (∀ (lib : LibM) (props : List PropObj) (world? : Option World) (dt : ℚ) (d : Pokeball),
       (ballStep lib props world? dt d).captureSuccess = d.captureSuccess) ∧
    (∀ (roll2 : ℚ) (owned2 : Bool) (p2 : Pokemon),
       (captureHit roll2 owned2 p2 (captureHit roll owned p b).2).2
         = (captureHit roll owned p b).2) ∧
    (∀ q : Pokemon, resolveCapture (captureHit roll owned p b).2 q =
       if (captureHit roll owned p b).2.captureSuccess = true then q.markCaptured
       else q.markCaptureFailed) := by
  refine ⟨?_, ?_, ?_, ?_, ?_⟩
  · rw [captureHit_fired roll owned p b hfire hb]
  · intro r q
    exact decide_eq_true_iff
  · intro lib props world? dt d
    exact (ballStep_preserves lib props world? dt d).2.2.1
  · intro roll2 owned2 p2
    exact captureHit_of_locked roll2 owned2 p2 hfire
  · intro q
    rfl

/-- The concrete hit used by witnesses does fire: the capsule gets locked. -/
theorem captureHit_fires_concrete :
    (captureHit (1/4) false wildPokemonW defaultBall).2.locked = true := by
  rw [captureHit, if_neg (by decide), if_neg (by decide), if_neg (by decide),
    if_neg (by decide), if_neg (by decide),
    if_pos (by norm_num [collide, Vec3.dot, Vec3.zero, wildPokemonW, defaultPokemon, defaultBall])]

/-- Witness for C2: a concrete hit with sample 1/4 against capture
probability 1/2 stores a successful outcome. -/
theorem capture_outcome_decided_at_hit_witness :
    (captureHit (1/4) false wildPokemonW defaultBall).2.captureSuccess = true := by
  have h := capture_outcome_decided_at_hit (1/4) false wildPokemonW defaultBall
    captureHit_fires_concrete rfl
  rw [h.1]
  norm_num [captureOutcome, wildPokemonW, defaultPokemon]

/-- C10: at the moment the hit test fires, the creature becomes `Capturing`
and invisible, and the capsule — velocity zeroed, deactivated — snaps to the
creature's position offset upward by the creature's radius; `Pokemon::update`
keeps a `Capturing` creature `Capturing` with visibility and position
unchanged, so the creature stays hidden throughout the shake animation. -/
theorem capturing_creature_hidden (roll : ℚ) (owned : Bool)
    (p : Pokemon) (b : Pokeball)
    (hfire : (captureHit roll owned p b).2.locked = true) (hb : b.locked = false) :
    ((captureHit roll owned p b).1.state = PokemonState.Capturing ∧
     (captureHit roll owned p b).1.visible = false ∧
     (captureHit roll owned p b).2.velocity = Vec3.zero ∧
     (captureHit roll owned p b).2.position = p.position + (⟨0, p.radius, 0⟩ : Vec3) ∧
     (captureHit roll owned p b).2.active = false) ∧
    ∀ (lib : LibM) (d1 : Vec3) (r1 : ℚ) (d2 : Vec3) (r2 : ℚ) (dt : ℚ)
      (world? : Option World) (obstacles : List Vec3) (q : Pokemon),
      q.state = PokemonState.Capturing →
        (Pokemon.update lib d1 r1 d2 r2 dt world? obstacles q).state = PokemonState.Capturing ∧
        (Pokemon.update lib d1 r1 d2 r2 dt world? obstacles q).visible = q.visible ∧
        (Pokemon.update lib d1 r1 d2 r2 dt world? obstacles q).position = q.position := by
  constructor
  · rw [captureHit_fired roll owned p b hfire hb]
    exact ⟨rfl, rfl, rfl, rfl, rfl⟩
  · intro lib d1 r1 d2 r2 dt world? obstacles q hq
    unfold Pokemon.update
    rw [hq]
    rw [if_neg (by decide)]
    rw [if_neg (by decide)]
    rw [if_pos (by decide)]
    exact ⟨rfl, rfl, rfl⟩

/-- Witness for C10: the concrete hit of `capture_outcome_decided_at_hit`
leaves the creature capturing and invisible. -/
theorem capturing_creature_hidden_witness :
    (captureHit (1/4) false wildPokemonW defaultBall).1.state = PokemonState.Capturing ∧
    (captureHit (1/4) false wildPokemonW defaultBall).1.visible = false := by
  have h := capturing_creature_hidden (1/4) false wildPokemonW defaultBall
    captureHit_fires_concrete rfl
  exact ⟨h.1.1, h.1.2.1⟩

/-! ## The CaptureFailed transient (Pokemon.cpp 52-58) -/

/-- Models `Pokemon::update` on a `CaptureFailed` creature: it picks a fresh wander
heading, becomes visible, and ends the very same call in state `Idle`
(Pokemon.cpp 52-58 — the branch overwrites the `Walking` state that
`pickNewWanderDirection` had just set). -/
theorem update_of_captureFailed (lib : LibM) (d1 : Vec3) (r1 : ℚ) (d2 : Vec3)
    (r2 : ℚ) (dt : ℚ) (world? : Option World) (obstacles : List Vec3)
    {q : Pokemon} (hq : q.state = PokemonState.CaptureFailed) :
    Pokemon.update lib d1 r1 d2 r2 dt world? obstacles q =
      { q.pickNewWanderDirection d1 r1 with
          visible := true, state := PokemonState.Idle } := by
  unfold Pokemon.update
  rw [hq]
  rw [if_neg (by decide), if_pos (by decide)]

/-- No call of `Pokemon::update` ever leaves the creature in
`CaptureFailed`: every branch exits to `Captured` (unchanged), `Idle`,
`Capturing` (unchanged) or a wandering state. -/
theorem update_never_captureFailed (lib : LibM) (d1 : Vec3) (r1 : ℚ) (d2 : Vec3)
    (r2 : ℚ) (dt : ℚ) (world? : Option World) (obstacles : List Vec3)
    (q : Pokemon) :
    (Pokemon.update lib d1 r1 d2 r2 dt world? obstacles q).state ≠
      PokemonState.CaptureFailed := by
  unfold Pokemon.update
  by_cases h1 : q.state = PokemonState.Captured
  · rw [if_pos h1]
    rw [h1]
    decide
  rw [if_neg h1]
  by_cases h2 : q.state = PokemonState.CaptureFailed
  · rw [if_pos h2]
    simp
  rw [if_neg h2]
  by_cases h3 : q.state = PokemonState.Capturing
  · rw [if_pos h3]
    show q.state ≠ PokemonState.CaptureFailed
    rw [h3]
    decide
  rw [if_neg h3]
  cases world? with
  | none =>
    dsimp only [Pokemon.pickNewWanderDirection]
    split_ifs <;> first | exact h2 | simp
  | some w =>
    dsimp only [Pokemon.pickNewWanderDirection]
    split_ifs <;> first | exact h2 | simp

/-- A concrete creature with capture probability `0`, used for C4. -/
def zeroRatePokemonW : Pokemon := { defaultPokemon with id := 9, catchRate := 0 }

/-- The concrete zero-probability hit fires: the capsule gets locked. -/
theorem captureHit_fires_zeroRate :
    (captureHit (1/2) false zeroRatePokemonW defaultBall).2.locked = true := by
  rw [captureHit, if_neg (by decide), if_neg (by decide), if_neg (by decide),
    if_neg (by decide), if_neg (by decide),
    if_pos (by norm_num [collide, Vec3.dot, Vec3.zero, zeroRatePokemonW,
      defaultPokemon, defaultBall])]

/-- C4 counterexample: a creature with capture probability `0.0` is hit
(sample 1/2), the stored outcome is failure, shake completion marks it
`CaptureFailed`, and the next `Pokemon::update` puts it in state `Idle` —
not `Walking` as the claim states. -/
theorem captureFailed_then_idle_not_walking_cex :
    (Pokemon.update stubLib ⟨1, 0, 0⟩ 0 ⟨0, 0, 1⟩ 0 (1/120) none []
        (resolveCapture (captureHit (1/2) false zeroRatePokemonW defaultBall).2
          (captureHit (1/2) false zeroRatePokemonW defaultBall).1)).state
      = PokemonState.Idle ∧
    PokemonState.Idle ≠ PokemonState.Walking := by
  have hpair := captureHit_fired (1/2) false zeroRatePokemonW defaultBall
    captureHit_fires_zeroRate rfl
  have hcs : (captureHit (1/2) false zeroRatePokemonW defaultBall).2.captureSuccess
      = false := by
    rw [hpair]
    simp only [captureOutcome, decide_eq_false_iff_not]
    norm_num [zeroRatePokemonW, defaultPokemon]
  have hres : (resolveCapture (captureHit (1/2) false zeroRatePokemonW defaultBall).2
      (captureHit (1/2) false zeroRatePokemonW defaultBall).1).state
      = PokemonState.CaptureFailed := by
    rw [resolveCapture, if_neg (by rw [hcs]; decide)]
    rfl
  refine ⟨?_, by decide⟩
  rw [update_of_captureFailed stubLib ⟨1, 0, 0⟩ 0 ⟨0, 0, 1⟩ 0 (1/120) none [] hres]

/-- C4 (amended): for a creature hit with capture probability `0` and a
strictly positive sample, the stored outcome is failure; shake completion
marks it `CaptureFailed` and visible; the next `Pokemon::update` call exits
`CaptureFailed` within that single call — visible, with a freshly chosen
wander heading, in state `Idle` (the source overwrites the `Walking` set by
`pickNewWanderDirection`; `Idle` wanders identically) — and no update ever
produces `CaptureFailed`, so the state is never observable across two
consecutive updates of the same creature. -/
theorem captureFailed_single_update (roll : ℚ) (owned : Bool)
    (p : Pokemon) (b : Pokeball)
    (hfire : (captureHit roll owned p b).2.locked = true) (hb : b.locked = false)
    (hzero : p.catchRate = 0) (hroll : 0 < roll) :
    ((captureHit roll owned p b).2.captureSuccess = false) ∧
    (∀ q : Pokemon,
       (resolveCapture (captureHit roll owned p b).2 q).state
           = PokemonState.CaptureFailed ∧
       (resolveCapture (captureHit roll owned p b).2 q).visible = true) ∧
    (∀ (lib : LibM) (d1 : Vec3) (r1 : ℚ) (d2 : Vec3) (r2 : ℚ) (dt : ℚ)
       (world? : Option World) (obstacles : List Vec3) (q : Pokemon),
       q.state = PokemonState.CaptureFailed →
         (Pokemon.update lib d1 r1 d2 r2 dt world? obstacles q).state
             = PokemonState.Idle ∧
         (Pokemon.update lib d1 r1 d2 r2 dt world? obstacles q).visible = true ∧
         (Pokemon.update lib d1 r1 d2 r2 dt world? obstacles q).wanderDir = d1 ∧
         (Pokemon.update lib d1 r1 d2 r2 dt world? obstacles q).velocity
             = q.speed • d1) ∧
    (∀ (lib : LibM) (d1 : Vec3) (r1 : ℚ) (d2 : Vec3) (r2 : ℚ) (dt : ℚ)
       (world? : Option World) (obstacles : List Vec3) (q : Pokemon),
       (Pokemon.update lib d1 r1 d2 r2 dt world? obstacles q).state ≠
         PokemonState.CaptureFailed) := by
  have hcs : (captureHit roll owned p b).2.captureSuccess = false := by
    rw [captureHit_fired roll owned p b hfire hb]
    show captureOutcome roll p.catchRate = false
    rw [hzero, captureOutcome, decide_eq_false_iff_not]
    exact not_le.2 hroll
  refine ⟨hcs, ?_, ?_, ?_⟩
  · intro q
    rw [resolveCapture, if_neg (by rw [hcs]; decide)]
    exact ⟨rfl, rfl⟩
  · intro lib d1 r1 d2 r2 dt world? obstacles q hq
    rw [update_of_captureFailed lib d1 r1 d2 r2 dt world? obstacles hq]
    exact ⟨rfl, rfl, rfl, rfl⟩
  · intro lib d1 r1 d2 r2 dt world? obstacles q
    exact update_never_captureFailed lib d1 r1 d2 r2 dt world? obstacles q

/-- Witness for the amended C4 at the concrete zero-probability creature. -/
theorem captureFailed_single_update_witness :
    (Pokemon.update stubLib ⟨1, 0, 0⟩ 0 ⟨0, 0, 1⟩ 0 (1/120) none []
        { zeroRatePokemonW with state := PokemonState.CaptureFailed }).state
      = PokemonState.Idle := by
  have h := captureFailed_single_update (1/2) false zeroRatePokemonW defaultBall
    captureHit_fires_zeroRate rfl rfl (by norm_num)
  exact (h.2.2.1 stubLib ⟨1, 0, 0⟩ 0 ⟨0, 0, 1⟩ 0 (1/120) none []
    { zeroRatePokemonW with state := PokemonState.CaptureFailed } rfl).1

/-! ## Resting contact with the terrain (C7) -/

/-- One physics increment on a capsule resting exactly at contact height over
the flat fallback terrain (`world_ == nullptr`: height `GROUND_Y`, unit up
normal), with purely vertical upward velocity `u` not exceeding the per-step
gravity impulse: gravity momentarily pulls the centre below the contact
boundary, the penetration correction restores it exactly, and the reflected
restitution-scaled velocity is again below the gravity impulse.  At the exact
boundary (`u = GRAVITY * step`) the strict test `dist < radius` does not fire
and the velocity is simply zeroed — the same closed form. -/
theorem ballStep_rest_contact (lib : LibM) (dt x0 z0 r u : ℚ) (hdt : 0 < dt)
    (hu0 : 0 ≤ u) (hu1 : u ≤ GRAVITY * min dt (1/60)) {b : Pokeball}
    (hpos : b.position = ⟨x0, GROUND_Y + r, z0⟩)
    (hvel : b.velocity = ⟨0, u, 0⟩) (hrad : b.radius = r)
    (hact : b.active = true) (hlock : b.locked = false) :
    (ballStep lib [] none dt b).position = ⟨x0, GROUND_Y + r, z0⟩ ∧
    (ballStep lib [] none dt b).velocity =
      ⟨0, BOUNCE_RESTITUTION * (GRAVITY * min dt (1/60) - u), 0⟩ ∧
    (ballStep lib [] none dt b).radius = r ∧
    (ballStep lib [] none dt b).active = true ∧
    (ballStep lib [] none dt b).locked = false := by
  have hs : 0 < min dt (1/60) := lt_min hdt (by norm_num)
  unfold ballStep
  rw [if_neg (by rw [hlock]; decide), if_neg (by rw [hact]; decide)]
  simp only [hvel, hpos, hrad, List.foldl_nil, Vec3.smul_def, Vec3.add_def, Vec3.sub_def,
    Vec3.dot, reflect]
  split_ifs with h1 h2
  · refine ⟨?_, ?_, rfl, hact, hlock⟩
    · simp only [Vec3.mk.injEq]
      refine ⟨by ring, by ring, by ring⟩
    · simp only [Vec3.mk.injEq]
      refine ⟨by ring, by ring, by ring⟩
  · exfalso
    have h2' : 0 ≤ u - GRAVITY * min dt (1/60) := by nlinarith [not_lt.1 h2]
    nlinarith [h1, mul_nonneg hs.le h2']
  · have hge : 0 ≤ u - GRAVITY * min dt (1/60) := by
      by_contra hcon
      push_neg at hcon
      nlinarith [not_lt.1 h1, mul_neg_of_pos_of_neg hs hcon]
    have heq : u = GRAVITY * min dt (1/60) := le_antisymm hu1 (by linarith)
    refine ⟨?_, ?_, rfl, hact, hlock⟩
    · simp only [Vec3.mk.injEq]
      refine ⟨by ring, by rw [heq]; ring, by ring⟩
    · simp only [Vec3.mk.injEq]
      refine ⟨by ring, by rw [heq]; ring, by ring⟩

/-- C7: a capsule whose centre is placed exactly `radius` above the (flat
fallback) terrain surface along the terrain normal, with zero velocity,
remains at exactly that position under arbitrarily many physics increments:
the strict penetration test never fires at the exact boundary (the no-fire
branch occurs exactly when the post-gravity velocity vanishes), and each
gravity-then-correct cycle restores the contact height, so no increment
displaces the capsule. -/
theorem capsule_at_contact_stationary (lib : LibM) (dt x0 z0 r : ℚ)
    (hdt : 0 < dt) (n : ℕ) :
    ((fun b => ballStep lib [] none dt b)^[n]
        { defaultBall with position := ⟨x0, GROUND_Y + r, z0⟩,
                           velocity := Vec3.zero, radius := r }).position
      = ⟨x0, GROUND_Y + r, z0⟩ := by
  have hg : (0 : ℚ) < GRAVITY := by norm_num [GRAVITY]
  have hs : 0 < min dt (1/60) := lt_min hdt (by norm_num)
  have key : ∀ m : ℕ, ∃ u : ℚ, 0 ≤ u ∧ u ≤ GRAVITY * min dt (1/60) ∧
      ((fun b => ballStep lib [] none dt b)^[m]
          { defaultBall with position := ⟨x0, GROUND_Y + r, z0⟩,
                             velocity := Vec3.zero, radius := r }).position
        = ⟨x0, GROUND_Y + r, z0⟩ ∧
      ((fun b => ballStep lib [] none dt b)^[m]
          { defaultBall with position := ⟨x0, GROUND_Y + r, z0⟩,
                             velocity := Vec3.zero, radius := r }).velocity
        = ⟨0, u, 0⟩ ∧
      ((fun b => ballStep lib [] none dt b)^[m]
          { defaultBall with position := ⟨x0, GROUND_Y + r, z0⟩,
                             velocity := Vec3.zero, radius := r }).radius = r ∧
      ((fun b => ballStep lib [] none dt b)^[m]
          { defaultBall with position := ⟨x0, GROUND_Y + r, z0⟩,
                             velocity := Vec3.zero, radius := r }).active = true ∧
      ((fun b => ballStep lib [] none dt b)^[m]
          { defaultBall with position := ⟨x0, GROUND_Y + r, z0⟩,
                             velocity := Vec3.zero, radius := r }).locked = false := by
    intro m
    induction m with
    | zero =>
      exact ⟨0, le_refl 0, by positivity, rfl, rfl, rfl, rfl, rfl⟩
    | succ k ih =>
      obtain ⟨u, hu0, hu1, hkpos, hkvel, hkrad, hkact, hklock⟩ := ih
      have hstep := ballStep_rest_contact lib dt x0 z0 r u hdt hu0 hu1
        hkpos hkvel hkrad hkact hklock
      refine ⟨BOUNCE_RESTITUTION * (GRAVITY * min dt (1/60) - u), ?_, ?_, ?_, ?_, ?_, ?_, ?_⟩
      · have : (0 : ℚ) ≤ BOUNCE_RESTITUTION := by norm_num [BOUNCE_RESTITUTION]
        exact mul_nonneg this (sub_nonneg.2 hu1)
      · have hrest : BOUNCE_RESTITUTION = (3 : ℚ)/5 := rfl
        nlinarith [mul_pos hg hs]
      · rw [Function.iterate_succ_apply']
        exact hstep.1
      · rw [Function.iterate_succ_apply']
        exact hstep.2.1
      · rw [Function.iterate_succ_apply']
        exact hstep.2.2.1
      · rw [Function.iterate_succ_apply']
        exact hstep.2.2.2.1
      · rw [Function.iterate_succ_apply']
        exact hstep.2.2.2.2
  obtain ⟨u, _, _, hpos, _⟩ := key n
  exact hpos

/-- Witness for C7: one concrete increment at the fixed physics timestep. -/
theorem capsule_at_contact_stationary_witness :
    ((fun b => ballStep stubLib [] none (1/120) b)^[1]
        { defaultBall with position := ⟨2, GROUND_Y + 1/5, -3⟩,
                           velocity := Vec3.zero, radius := 1/5 }).position
      = ⟨2, GROUND_Y + 1/5, -3⟩ :=
  capsule_at_contact_stationary stubLib (1/120) 2 (-3) (1/5) (by norm_num) 1

/-! ## Inventory manager (src/core/PokemonController.cpp) -/

/-- The state of `PokemonController` (PokemonController.h 44-47): the live
roster `pokemon_`, the inventory `inventory_`, the active-slot side table
`outPokemonIndices_`, and the id counter `nextPokemonId_`. -/
structure Controller where
  pokemon : List Pokemon
  inventory : List Pokemon
  outPokemonIndices : List ℕ
  nextPokemonId : ℤ
deriving DecidableEq, Repr

/-- The freshly constructed controller: all containers empty,
`nextPokemonId_ = 1`. -/
def Controller.init : Controller := ⟨[], [], [], 1⟩

/-- Models `PokemonController::isPokemonOut` (197-200). -/
def Controller.isPokemonOut (c : Controller) (inventoryIndex : ℕ) : Bool :=
  c.outPokemonIndices.contains inventoryIndex

/-- Models `PokemonController::hasAnyPokemonOut` (203-205). -/
def Controller.hasAnyPokemonOut (c : Controller) : Bool :=
  !c.outPokemonIndices.isEmpty

/-- Models `PokemonController::isOwnedPokemon` (208-221): some active slot's
inventory entry has the same id. -/
def Controller.isOwnedPokemon (c : Controller) (p : Pokemon) : Bool :=
  c.outPokemonIndices.any fun outIdx =>
    decide (outIdx < c.inventory.length) &&
    decide (p.id = (c.inventory.getD outIdx defaultPokemon).id)

/-- Models `PokemonController::spawnPokemon` (33-37) together with the `Pokemon`
constructor (Pokemon.cpp 22-31): build the creature (its constructor ends in
a `pickNewWanderDirection`, whose oracle inputs are `dir`, `r`) and append it
to the roster. -/
def Controller.spawnPokemon (c : Controller) (catchRate : ℚ) (pos : Vec3)
    (speed radius : ℚ) (idArg : ℤ) (dir : Vec3) (r : ℚ) : Controller :=
  let actualId := if idArg = 0 then c.nextPokemonId else idArg
  let base : Pokemon :=
    { id := actualId, catchRate := catchRate, position := pos,
      velocity := Vec3.zero, wanderDir := Vec3.zero, speed := speed,
      radius := radius, visible := true, state := PokemonState.Idle,
      timeUntilDirectionChange := 0, captureTimer := 0, yRotation := 0 }
  { c with pokemon := c.pokemon ++ [base.pickNewWanderDirection dir r],
           nextPokemonId := if idArg = 0 then c.nextPokemonId + 1 else c.nextPokemonId }

/-- Models `PokemonController::updateInventory` (108-125): move roster entries that
are `Captured`, invisible and not owned into the inventory (ownership
transfer), preserving order.  The source's single interleaved erase/push loop
equals this split into two filters because `isOwnedPokemon` reads only
`outPokemonIndices_` and the ids at those inventory slots, which the loop's
`push_back`s never change. -/
def Controller.updateInventory (c : Controller) : Controller :=
  let shouldMove := fun p : Pokemon =>
    decide (p.state = PokemonState.Captured) && !p.visible && !c.isOwnedPokemon p
  { c with pokemon := c.pokemon.filter (fun p => !(shouldMove p)),
           inventory := c.inventory ++ c.pokemon.filter shouldMove }

/-- Models `PokemonController::sendOutPokemon` (128-158). -/
def Controller.sendOutPokemon (c : Controller) (inventoryIndex : ℕ)
    (position : Vec3) : Bool × Controller :=
  if c.inventory.length ≤ inventoryIndex then (false, c)
  else if c.hasAnyPokemonOut then (false, c)
  else if c.isPokemonOut inventoryIndex then (false, c)
  else
    let sentOut := { c.inventory.getD inventoryIndex defaultPokemon with
                       position := position, state := PokemonState.Idle,
                       visible := true }
    (true, { c with pokemon := c.pokemon ++ [sentOut],
                    outPokemonIndices := c.outPokemonIndices ++ [inventoryIndex] })

/-- Remove the last element satisfying `pred` — the source's reverse-iterator
search and erase (PokemonController.cpp 177-184); `none` when no element
matches. -/
def removeLastMatching {α : Type} (pred : α → Bool) : List α → Option (List α)
  | [] => none
  | a :: as =>
    match removeLastMatching pred as with
    | some as' => some (a :: as')
    | none => if pred a then some as else none

/-- Models `PokemonController::recallPokemon` (161-194): fails on an out-of-range
slot, on a slot that is not flagged active, or (unreachable in practice) when
no matching live copy exists; on success removes the last matching owned
roster entry and clears the slot's active flag. -/
def Controller.recallPokemon (c : Controller) (inventoryIndex : ℕ) :
    Bool × Controller :=
  if c.inventory.length ≤ inventoryIndex then (false, c)
  else if !(c.outPokemonIndices.contains inventoryIndex) then (false, c)
  else
    let targetId := (c.inventory.getD inventoryIndex defaultPokemon).id
    match removeLastMatching
        (fun p => decide (p.id = targetId) && c.isOwnedPokemon p) c.pokemon with
    | none => (false, c)
    | some pokemon' =>
        (true, { c with pokemon := pokemon',
                        outPokemonIndices := c.outPokemonIndices.erase inventoryIndex })

/-- Controller states reachable from the initial state.  `updateAll` and
`handlePokeballCapture` write only to `pokemon_` (they mutate creatures and
capsules, never `inventory_` or `outPokemonIndices_`), so they are soundly
over-approximated by the `roster` constructor, which replaces the roster
arbitrarily. -/
inductive Reachable : Controller → Prop where
  | init : Reachable Controller.init
  | spawn (catchRate : ℚ) (pos : Vec3) (speed radius : ℚ) (idArg : ℤ)
      (dir : Vec3) (r : ℚ) {c : Controller} :
      Reachable c → Reachable (c.spawnPokemon catchRate pos speed radius idArg dir r)
  | sendOut (i : ℕ) (pos : Vec3) {c : Controller} :
      Reachable c → Reachable (c.sendOutPokemon i pos).2
  | recallSlot (i : ℕ) {c : Controller} :
      Reachable c → Reachable (c.recallPokemon i).2
  | promote {c : Controller} : Reachable c → Reachable c.updateInventory
  | roster (ps : List Pokemon) {c : Controller} :
      Reachable c → Reachable { c with pokemon := ps }

/-- The active-slot side table never holds more than one entry in any
reachable controller state. -/
theorem reachable_out_le_one {c : Controller} (hc : Reachable c) :
    c.outPokemonIndices.length ≤ 1 := by
  induction hc with
  | init => decide
  | @spawn catchRate pos speed radius idArg dir r c' hr ih => exact ih
  | @sendOut i pos c' hr ih =>
    rw [Controller.sendOutPokemon]
    split_ifs with h1 h2 h3
    · exact ih
    · exact ih
    · exact ih
    · have hempty : c'.outPokemonIndices = [] := by
        simp [Controller.hasAnyPokemonOut, List.isEmpty_iff] at h2
        exact h2
      simp [hempty]
  | @recallSlot i c' hr ih =>
    rw [Controller.recallPokemon]
    split_ifs with h1 h2
    · exact ih
    · exact ih
    · dsimp only
      split
      · exact ih
      · exact le_trans (List.Sublist.length_le (List.erase_sublist i c'.outPokemonIndices)) ih
  | @promote c' hr ih => exact ih
  | @roster ps c' hr ih => exact ih

/-- A successful recall implies the slot was active, and the result keeps the
inventory unchanged and erases the slot from the side table. -/
theorem recall_success_facts {c : Controller} {i : ℕ}
    (h : (c.recallPokemon i).1 = true) :
    i ∈ c.outPokemonIndices ∧
    (c.recallPokemon i).2.inventory = c.inventory ∧
    (c.recallPokemon i).2.outPokemonIndices = c.outPokemonIndices.erase i := by
  rw [Controller.recallPokemon] at h
  by_cases h1 : c.inventory.length ≤ i
  · rw [if_pos h1] at h
    cases h
  rw [if_neg h1] at h
  by_cases h2 : (!(c.outPokemonIndices.contains i)) = true
  · rw [if_pos h2] at h
    cases h
  rw [if_neg h2] at h
  dsimp only at h
  have hmem : i ∈ c.outPokemonIndices := by simpa using h2
  refine ⟨hmem, ?_⟩
  rw [Controller.recallPokemon, if_neg h1, if_neg h2]
  dsimp only
  split at h
  · cases h
  · exact ⟨rfl, rfl⟩

/-- C3: in every reachable Inventory Manager state the active-slot side
table holds at most one entry; `sendOut` returns `false` with the state
unchanged on an out-of-range slot, whenever any slot is already active, and
in particular when the requested slot itself is active; and after a
successful `recall` of the active slot, a subsequent `sendOut` on any valid
slot succeeds. -/
theorem inventory_single_active (c : Controller) (hc : Reachable c) :
    c.outPokemonIndices.length ≤ 1 ∧
    (∀ (i : ℕ) (pos : Vec3), c.inventory.length ≤ i →
       c.sendOutPokemon i pos = (false, c)) ∧
    (∀ (i : ℕ) (pos : Vec3), c.outPokemonIndices ≠ [] →
       c.sendOutPokemon i pos = (false, c)) ∧
    (∀ (i : ℕ) (pos : Vec3), i ∈ c.outPokemonIndices →
       c.sendOutPokemon i pos = (false, c)) ∧
    (∀ (i j : ℕ) (pos : Vec3), (c.recallPokemon i).1 = true →
       j < c.inventory.length →
       ((c.recallPokemon i).2.sendOutPokemon j pos).1 = true) := by
  refine ⟨reachable_out_le_one hc, ?_, ?_, ?_, ?_⟩
  · intro i pos hi
    rw [Controller.sendOutPokemon, if_pos hi]
  · intro i pos hne
    rw [Controller.sendOutPokemon]
    split_ifs with h1 h2 h3
    · rfl
    · rfl
    · rfl
    · exact absurd (by simpa [Controller.hasAnyPokemonOut, List.isEmpty_iff] using h2) hne
  · intro i pos hmem
    rw [Controller.sendOutPokemon]
    split_ifs with h1 h2 h3
    · rfl
    · rfl
    · rfl
    · exfalso
      have : c.outPokemonIndices = [] := by
        simpa [Controller.hasAnyPokemonOut, List.isEmpty_iff] using h2
      rw [this] at hmem
      cases hmem
  · intro i j pos hrec hj
    obtain ⟨hmem, hinv, hout⟩ := recall_success_facts hrec
    have hlen := reachable_out_le_one hc
    have hnil : (c.recallPokemon i).2.outPokemonIndices = [] := by
      rw [hout]
      cases hlist : c.outPokemonIndices with
      | nil =>
        rw [hlist] at hmem
        cases hmem
      | cons a as =>
        rw [hlist] at hlen hmem
        cases as with
        | cons b bs => simp at hlen
        | nil =>
          have hia : i = a := by simpa using hmem
          subst hia
          simp
    have hg1 : ¬((c.recallPokemon i).2.inventory.length ≤ j) := by
      rw [hinv]
      omega
    have hg2 : ¬((c.recallPokemon i).2.hasAnyPokemonOut = true) := by
      simp [Controller.hasAnyPokemonOut, hnil]
    have hg3 : ¬((c.recallPokemon i).2.isPokemonOut j = true) := by
      simp [Controller.isPokemonOut, hnil]
    rw [Controller.sendOutPokemon, if_neg hg1, if_neg hg2, if_neg hg3]

/-- Witness for C3 at the freshly constructed controller. -/
theorem inventory_single_active_witness :
    Controller.init.outPokemonIndices.length ≤ 1 ∧
    Controller.init.sendOutPokemon 0 Vec3.zero = (false, Controller.init) := by
  have h := inventory_single_active Controller.init Reachable.init
  exact ⟨h.1, h.2.1 0 Vec3.zero (by decide)⟩

/-- C9: failed inventory operations are atomic: whenever `sendOut` or
`recall` returns `false`, the whole controller state — the inventory list,
the roster and the active-slot side table — is left exactly as it was. -/
theorem inventory_failure_atomic (c : Controller) (i : ℕ) (pos : Vec3) :
    ((c.sendOutPokemon i pos).1 = false → (c.sendOutPokemon i pos).2 = c) ∧
    ((c.recallPokemon i).1 = false → (c.recallPokemon i).2 = c) := by
  constructor
  · intro h
    rw [Controller.sendOutPokemon] at h ⊢
    split_ifs at h ⊢ <;> first | rfl | simp at h
  · intro h
    rw [Controller.recallPokemon] at h ⊢
    split_ifs at h ⊢ with h1 h2
    · rfl
    · rfl
    · dsimp only at h ⊢
      split at h
      · rfl
      · simp at h

/-- Witness for C9: both operations fail on the empty controller and leave
it unchanged. -/
theorem inventory_failure_atomic_witness :
    (Controller.init.sendOutPokemon 0 Vec3.zero).2 = Controller.init ∧
    (Controller.init.recallPokemon 0).2 = Controller.init := by
  have h := inventory_failure_atomic Controller.init 0 Vec3.zero
  exact ⟨h.1 rfl, h.2 rfl⟩

/-! ## Fixed-step drain and the per-frame capture pass (App::updateTiming) -/

/-- The accumulator drain of `App::updateTiming` (App.cpp 146-152): after the
frame's `dt` has been added to the accumulator, `while (acc >= h)` one call
of `App::updatePokeballs(h)` runs and `h = PHYSICS_TIMESTEP` is subtracted.
Returns the remaining accumulator together with the number of
`updatePokeballs` calls made during the frame. -/
def drainLoop (acc : ℚ) : ℚ × ℕ :=
  if hge : PHYSICS_TIMESTEP ≤ acc then
    let r := drainLoop (acc - PHYSICS_TIMESTEP)
    (r.1, r.2 + 1)
  else (acc, 0)
termination_by (⌊acc / PHYSICS_TIMESTEP⌋).toNat
decreasing_by
  have hp : (0 : ℚ) < PHYSICS_TIMESTEP := by norm_num [PHYSICS_TIMESTEP]
  have h1 : (acc - PHYSICS_TIMESTEP) / PHYSICS_TIMESTEP
      = acc / PHYSICS_TIMESTEP - 1 := by
    field_simp
  have h2 : (1 : ℚ) ≤ acc / PHYSICS_TIMESTEP := (le_div_iff hp).2 (by linarith)
  have h3 : (1 : ℤ) ≤ ⌊acc / PHYSICS_TIMESTEP⌋ := Int.le_floor.2 (by exact_mod_cast h2)
  rw [h1, Int.floor_sub_one]
  omega

/-- The drain count equals `⌊acc / PHYSICS_TIMESTEP⌋` for a nonnegative
accumulator. -/
theorem drainLoop_count :
    ∀ (n : ℕ) (a : ℚ), 0 ≤ a → (⌊a / PHYSICS_TIMESTEP⌋).toNat = n →
      (drainLoop a).2 = n := by
  intro n
  induction n using Nat.strong_induction_on with
  | _ n ih =>
    intro a ha hn
    have hp : (0 : ℚ) < PHYSICS_TIMESTEP := by norm_num [PHYSICS_TIMESTEP]
    rw [drainLoop]
    split_ifs with hge
    · dsimp only
      have h1 : (a - PHYSICS_TIMESTEP) / PHYSICS_TIMESTEP
          = a / PHYSICS_TIMESTEP - 1 := by
        field_simp
      have h2 : (1 : ℚ) ≤ a / PHYSICS_TIMESTEP := (le_div_iff hp).2 (by linarith)
      have h3 : (1 : ℤ) ≤ ⌊a / PHYSICS_TIMESTEP⌋ := Int.le_floor.2 (by exact_mod_cast h2)
      have hm : (⌊(a - PHYSICS_TIMESTEP) / PHYSICS_TIMESTEP⌋).toNat = n - 1 := by
        rw [h1, Int.floor_sub_one]
        omega
      have ha' : 0 ≤ a - PHYSICS_TIMESTEP := by linarith
      rw [ih (n - 1) (by omega) (a - PHYSICS_TIMESTEP) ha' hm]
      omega
    · have hfl : ⌊a / PHYSICS_TIMESTEP⌋ = 0 := by
        apply Int.floor_eq_zero_iff.2
        constructor
        · exact div_nonneg ha hp.le
        · exact (div_lt_one hp).2 (not_le.1 hge)
      omega

/-- Per rendered frame: the number of capture-initiation passes.
`App::updatePokeballs` invokes `PokemonController::handlePokeballCapture`
exactly once per call, unconditionally (App.cpp 810-813), and
`App::updateTiming` calls `updatePokeballs` once per drained increment
(App.cpp 149-152), so the capture passes run in a frame equal that frame's
drain count. -/
def capturePassesInFrame (acc dt : ℚ) : ℕ := (drainLoop (acc + dt)).2

/-- C5 counterexample: starting from an empty accumulator, a rendered frame
of `1/240` s runs the capture-initiation pass 0 times, and a frame of
`1/60` s runs it twice — the pass does not execute exactly once per frame. -/
theorem capture_pass_not_once_per_frame_cex :
    capturePassesInFrame 0 (1/240) = 0 ∧ capturePassesInFrame 0 (1/60) = 2 ∧
    (0 : ℕ) ≠ 1 ∧ (2 : ℕ) ≠ 1 := by
  refine ⟨?_, ?_, by decide, by decide⟩
  · exact drainLoop_count 0 (0 + 1/240) (by norm_num) (by norm_num [PHYSICS_TIMESTEP])
  · exact drainLoop_count 2 (0 + 1/60) (by norm_num)
      (by norm_num [PHYSICS_TIMESTEP]
          decide)

/-- C5 (amended): the capture-initiation pass executes exactly once per
drained fixed physics increment — `⌊(acc + dt) / PHYSICS_TIMESTEP⌋` times in
a rendered frame whose accumulator starts at `acc ≥ 0` and which adds
`dt ≥ 0` — not exactly once per frame: frames may run it zero or several
times. -/
theorem capture_pass_once_per_increment (acc dt : ℚ) (ha : 0 ≤ acc)
    (hdt : 0 ≤ dt) :
    capturePassesInFrame acc dt = (⌊(acc + dt) / PHYSICS_TIMESTEP⌋).toNat :=
  drainLoop_count (⌊(acc + dt) / PHYSICS_TIMESTEP⌋).toNat (acc + dt)
    (by linarith) rfl

/-- Witness for the amended C5 at a frame of `1/60` s. -/
theorem capture_pass_once_per_increment_witness :
    capturePassesInFrame 0 (1/60) = (⌊((0 : ℚ) + 1/60) / PHYSICS_TIMESTEP⌋).toNat ∧
    (⌊((0 : ℚ) + 1/60) / PHYSICS_TIMESTEP⌋).toNat = 2 := by
  refine ⟨capture_pass_once_per_increment 0 (1/60) le_rfl (by norm_num), ?_⟩
  norm_num [PHYSICS_TIMESTEP]
  decide

end PokePP
